import Mathlib

/-!
Verification development for a deferred task scheduler backed by a relational
store.  The definitions below are a shallow embedding of the scheduler's
source: the SQL statements in db.rs become pure functions over a list of
rows (the table, in storage order), and the control flow of the executor
activities (work queue consumer, notification listener, periodic searcher)
becomes pure step functions over explicit inputs (received events, channel
capacity, send outcomes).
-/

namespace TaskSched

/-- Task identifiers: 128-bit UUIDs, modelled abstractly as naturals. -/
abbrev Uuid := Nat

/-- Absolute instants, modelled as integer microseconds since an epoch
(matching the microsecond resolution of PgInterval). -/
abbrev Timestamp := Int

/-- Closed set of task kinds, from types.rs (TaskType). -/
inductive TaskType where
  | Foo
  | Bar
  | Baz
deriving DecidableEq, Repr

/-- Rust-side status enum from types.rs (TaskStatus).  Note that it has no
variant for the database value used for deleted rows. -/
inductive TaskStatus where
  | Submitted
  | StartedExecuting
  | Done
  | Failed
deriving DecidableEq, Repr

/-- Database-side task_status enum: the SQL enumerated type has a fifth
value for deleted rows, which the Rust enum cannot represent. -/
inductive SqlTaskStatus where
  | submitted
  | started_executing
  | done
  | failed
  | deleted
deriving DecidableEq, Repr

/-- How sqlx binds a Rust TaskStatus value to the SQL task_status type
(snake_case renaming from types.rs). -/
def encodeTaskStatus : TaskStatus → SqlTaskStatus
  | .Submitted => .submitted
  | .StartedExecuting => .started_executing
  | .Done => .done
  | .Failed => .failed

/-- How sqlx decodes a SQL task_status value into the Rust TaskStatus enum:
the deleted value has no corresponding Rust variant, so decoding it fails
(a ColumnDecode error at runtime). -/
def decodeSqlStatus : SqlTaskStatus → Option TaskStatus
  | .submitted => some .Submitted
  | .started_executing => some .StartedExecuting
  | .done => some .Done
  | .failed => some .Failed
  | .deleted => none

/-- The in-flight task projection sent between components, from types.rs
(struct Task): identity, kind and execution instant only. -/
structure Task where
  id : Uuid
  task_type : TaskType
  execution_time : Timestamp
deriving DecidableEq, Repr

/-- One persisted row of the tasks table, with every lifecycle column. -/
structure TaskRow where
  id : Uuid
  created_at : Timestamp
  status : SqlTaskStatus
  execution_time : Timestamp
  task_type : TaskType
  started_executing_at : Option Timestamp
  completed_at : Option Timestamp
  failed_at : Option Timestamp
  deleted_at : Option Timestamp
deriving DecidableEq, Repr

/-- The tasks table, in storage order.  The primary key on id is expressed
as a Nodup hypothesis on the mapped ids where a proof needs it. -/
abbrev Db := List TaskRow

/-- Storage-layer errors (sqlx::Error), abstracted to the two ways they
arise in the modelled code paths. -/
inductive DbErr where
  | connectionFailed
  | columnDecode
deriving DecidableEq, Repr

/-- Application error enum from error.rs. -/
inductive Error where
  | UnableToDeleteTask (id : Uuid) (status : TaskStatus)
  | TaskNotFound (id : Uuid)
  | SqlxError (e : DbErr)
  | ReqwestError
  | SerdeJsonError
deriving DecidableEq, Repr

/-! ## Store adapter (db.rs) -/

/-- Model of fetch_task_for_pg_searcher: the SELECT keeps the rows whose
status is submitted and whose execution_time is at most now plus the
lookahead interval (max_seconds_to_sleep seconds, converted to microseconds
exactly as the PgInterval is built), projects them to the in-flight shape,
and applies LIMIT.  The query has no ORDER BY clause, so rows come back in
storage order. -/
def fetch_task_for_pg_searcher (now : Timestamp) (max_concurrent_tasks_in_memory : Nat)
    (max_seconds_to_sleep : Int) (db : Db) : List Task :=
  ((db.filter (fun r =>
      r.status == SqlTaskStatus.submitted &&
      decide (r.execution_time ≤ now + max_seconds_to_sleep * 1000000))).map
    (fun r => { id := r.id, task_type := r.task_type, execution_time := r.execution_time })).take
    max_concurrent_tasks_in_memory

/-- Model of get_task: SELECT ... WHERE id = $1 AND status != 'deleted',
fetched optionally.  (The TaskInDb decoding of the selected row is total
because the filter excludes the only undecodable status.) -/
def get_task (db : Db) (task_id : Uuid) : Option TaskRow :=
  (db.filter (fun r => r.id == task_id && !(r.status == SqlTaskStatus.deleted))).head?

/-- Model of list_tasks: optional status and type filters, with deleted
rows always excluded. -/
def list_tasks (db : Db) (status : Option TaskStatus) (typ : Option TaskType) : List TaskRow :=
  db.filter (fun r =>
    (match status with
     | none => true
     | some s => r.status == encodeTaskStatus s) &&
    (match typ with
     | none => true
     | some t => r.task_type == t) &&
    !(r.status == SqlTaskStatus.deleted))

/-- Model of the private get_task_status helper: select the row's status
and decode it into the Rust enum; decoding fails on a deleted row. -/
def get_task_status (db : Db) (task_id : Uuid) : Except DbErr (Option TaskStatus) :=
  match (db.filter (fun r => r.id == task_id)).head? with
  | none => Except.ok none
  | some r =>
    match decodeSqlStatus r.status with
    | some s => Except.ok (some s)
    | none => Except.error DbErr.columnDecode

/-- Model of mark_task_deleted: read the current status; a storage error
propagates; a missing row is TaskNotFound; a non-Submitted decoded status
is UnableToDeleteTask; otherwise the UPDATE sets status and deleted_at on
the row with this id (the UPDATE itself also filters out already-deleted
rows). -/
def mark_task_deleted (now : Timestamp) (db : Db) (task_id : Uuid) : Except Error Db :=
  match get_task_status db task_id with
  | Except.error e => Except.error (Error.SqlxError e)
  | Except.ok none => Except.error (Error.TaskNotFound task_id)
  | Except.ok (some st) =>
    if st = TaskStatus.Submitted then
      Except.ok (db.map (fun r =>
        if r.id == task_id && !(r.status == SqlTaskStatus.deleted) then
          { r with status := SqlTaskStatus.deleted, deleted_at := some now }
        else r))
    else Except.error (Error.UnableToDeleteTask task_id st)

/-- Model of acquire_exclusive_lock: UPDATE ... WHERE id = $1 AND
status = 'submitted' setting status and started_executing_at; the second
component is the reported rows_affected count, the number of rows the
WHERE clause matched. -/
def acquire_exclusive_lock (now : Timestamp) (db : Db) (task_id : Uuid) : Db × Nat :=
  ((db.map (fun r =>
      if r.id == task_id && r.status == SqlTaskStatus.submitted then
        { r with status := SqlTaskStatus.started_executing, started_executing_at := some now }
      else r)),
   (db.filter (fun r => r.id == task_id && r.status == SqlTaskStatus.submitted)).length)

/-! ## Notification codec (notification_handler.rs and db.rs) -/

/-- The wire-level in-flight task: the id field carries the canonical
string serialization of the UUID and execution_time the RFC 3339
serialization of the instant, as serde produces them. -/
structure NotifTask where
  id : List Char
  task_type : TaskType
  execution_time : List Char
deriving DecidableEq, Repr

/-- Notification enum from notification_handler.rs. -/
inductive Notification where
  | Stop
  | NewTask (t : NotifTask)
deriving DecidableEq, Repr

/-- Decode errors, one constructor per error branch of the TryFrom
implementation (the Rust code returns descriptive strings). -/
inductive DecodeErr where
  | badBody
  | unexpectedType
  | noSpace
deriving DecidableEq, Repr

/-- Serde serialization of a TaskType value (rename_all lowercase). -/
def taskTypeWire : TaskType → List Char
  | .Foo => "foo".data
  | .Bar => "bar".data
  | .Baz => "baz".data

/-- Inverse of taskTypeWire, as serde's deserializer accepts it. -/
def parseTaskType (s : List Char) : Option TaskType :=
  if s = "foo".data then some TaskType.Foo
  else if s = "bar".data then some TaskType.Bar
  else if s = "baz".data then some TaskType.Baz
  else none

/-- Canonical serde_json serialization of the in-flight Task struct:
fields in declaration order (id, task_type, execution_time), each value a
JSON string, no added whitespace.  Valid ids and timestamps (see
validNotifTask) need no escaping, so the field content is embedded
verbatim. -/
def jsonOfTask (t : NotifTask) : List Char :=
  "\x7b\"id\":\"".data ++ t.id ++
  "\",\"task_type\":\"".data ++ taskTypeWire t.task_type ++
  "\",\"execution_time\":\"".data ++ t.execution_time ++
  "\"\x7d".data

/-- Model of the announcement producers: notify_pg_channel_of_task in
db.rs formats the payload as new_task followed by a space and the JSON
body.  Modelled from the spec: the stop announcement (no producer in the
executor sources) is the bare payload stop. -/
def encodeNotification : Notification → List Char
  | .Stop => "stop".data
  | .NewTask t => "new_task ".data ++ jsonOfTask t

/-- Split a list at the first occurrence of a separator, as Rust's
split_once does: the separator is consumed, and none is returned when it
does not occur. -/
def splitOnce (c : Char) : List Char → Option (List Char × List Char)
  | [] => none
  | x :: xs =>
    if x = c then some ([], xs)
    else (splitOnce c xs).map (fun p => (x :: p.1, p.2))

/-- Consume an expected literal from the front of the input, failing when
the input does not start with it. -/
def consumeLit : List Char → List Char → Option (List Char)
  | [], rest => some rest
  | _ :: _, [] => none
  | p :: ps, x :: xs => if x = p then consumeLit ps xs else none

/-- Parse the canonical serde_json serialization of the in-flight Task
struct (the exact image of jsonOfTask, which is what serde_json's
deserializer accepts on the wire format the producers emit). -/
def parseTaskJson (body : List Char) : Option NotifTask :=
  match consumeLit "\x7b\"id\":\"".data body with
  | none => none
  | some r1 =>
    match splitOnce '"' r1 with
    | none => none
    | some (idStr, r2) =>
      match consumeLit ",\"task_type\":\"".data r2 with
      | none => none
      | some r3 =>
        match splitOnce '"' r3 with
        | none => none
        | some (tyStr, r4) =>
          match parseTaskType tyStr with
          | none => none
          | some ty =>
            match consumeLit ",\"execution_time\":\"".data r4 with
            | none => none
            | some r5 =>
              match splitOnce '"' r5 with
              | none => none
              | some (timeStr, r6) =>
                if r6 = "\x7d".data then
                  some { id := idStr, task_type := ty, execution_time := timeStr }
                else none

/-- Model of the TryFrom implementation for Notification: the bare stop
payload first, otherwise split on the first space into a type tag and a
body, dispatch on the tag, and deserialize the body for new_task. -/
def decodeNotification (value : List Char) : Except DecodeErr Notification :=
  if value = "stop".data then Except.ok Notification.Stop
  else
    match splitOnce ' ' value with
    | some (ty, body) =>
      if ty = "new_task".data then
        match parseTaskJson body with
        | some t => Except.ok (Notification.NewTask t)
        | none => Except.error DecodeErr.badBody
      else Except.error DecodeErr.unexpectedType
    | none => Except.error DecodeErr.noSpace

/-- Validity of a wire-level task: its id and execution_time strings are
free of the characters serde_json would escape (quote, backslash, control
characters).  Canonical UUID and RFC 3339 strings always satisfy this. -/
def validNotifTask (t : NotifTask) : Prop :=
  ('"' ∉ t.id ∧ '\\' ∉ t.id ∧ ∀ c ∈ t.id, 32 ≤ c.toNat) ∧
  ('"' ∉ t.execution_time ∧ '\\' ∉ t.execution_time ∧
    ∀ c ∈ t.execution_time, 32 ≤ c.toNat)

instance (t : NotifTask) : Decidable (validNotifTask t) := by
  unfold validNotifTask; infer_instance

/-! ## In-process entities -/

/-- Queue events from task_executor/mod.rs. -/
inductive QueueEvent where
  | Task (t : Task)
  | Stop
deriving DecidableEq, Repr

/-- The concurrent id set (scc::HashSet), modelled as a list of ids. -/
abbrev IdSet := List Uuid

/-- Membership test (contains_async). -/
def containsSet (s : IdSet) (i : Uuid) : Bool := s.contains i

/-- Insertion (insert_async); inserting a present key leaves the set
unchanged (the Rust call returns an ignored error in that case). -/
def insertSet (s : IdSet) (i : Uuid) : IdSet :=
  if s.contains i then s else i :: s

/-- Removal (remove_async). -/
def eraseSet (s : IdSet) (i : Uuid) : IdSet := s.erase i

/-- Outcome of one bounded channel send attempt, as the environment
resolves it: delivered within the wait bound, timed out, or channel
closed. -/
inductive SendResult where
  | ok
  | timeout
  | closed
deriving DecidableEq, Repr

/-! ## WorkQueue (work_queue.rs) -/

/-- What one iteration of the start_work_queue receive loop does with the
value recv returned. -/
inductive WorkQueueAction where
  | spawned (t : Task)
  | droppedNoPermit (t : Task)
  | stopLogged
  | exited
deriving DecidableEq, Repr

/-- Model of one iteration of the start_work_queue loop body: a Task event
spawns the per-task activity only when a sleep permit is available,
otherwise the task is dropped with a log line; a Stop event is logged (the
match arm contains no break statement); a None from recv breaks out of the
loop. -/
def start_work_queue_step (available_permits : Nat) :
    Option QueueEvent → WorkQueueAction
  | some (QueueEvent.Task t) =>
    if 1 ≤ available_permits then WorkQueueAction.spawned t
    else WorkQueueAction.droppedNoPermit t
  | some QueueEvent.Stop => WorkQueueAction.stopLogged
  | none => WorkQueueAction.exited

/-- Whether the loop iteration ends the receive loop: only the None branch
of the source executes a break. -/
def stepBreaksLoop : WorkQueueAction → Bool
  | WorkQueueAction.exited => true
  | _ => false

/-- Outcome of the claim attempt in execute_task_once. -/
inductive ExecOutcome where
  | skippedAlreadyHandled
  | executedBody
  | unreachableRowCount
deriving DecidableEq, Repr

/-- Model of execute_task_once: acquire the exclusive lock and dispatch on
rows_affected; zero rows means another worker owns the task, one row means
this worker runs the body, and any other count is the unreachable arm. -/
def execute_task_once (now : Timestamp) (db : Db) (task : Task) : ExecOutcome × Db :=
  let res := acquire_exclusive_lock now db task.id
  match res.2 with
  | 0 => (ExecOutcome.skippedAlreadyHandled, res.1)
  | 1 => (ExecOutcome.executedBody, res.1)
  | _ => (ExecOutcome.unreachableRowCount, res.1)

/-- Model of the dedup-set effect of execute_task_from_queue: after the
per-task activity runs execute_task_once (whatever the claim outcome), it
removes the task id from task_ids_in_queue.  The sleeping and the
semaphore waits are real-time behaviour outside this embedding. -/
def execute_task_from_queue (now : Timestamp) (db : Db) (task : Task)
    (task_ids_in_queue : IdSet) : ExecOutcome × Db × IdSet :=
  let res := execute_task_once now db task
  (res.1, res.2, eraseSet task_ids_in_queue task.id)

/-! ## Listener ingress (notification_handler.rs) -/

/-- Bound in milliseconds on the Listener's channel send wait
(Duration::from_millis(100) in submit_task_to_mpsc). -/
def listenerSendTimeoutMillis : Nat := 100

/-- Outcome of one submit_task_to_mpsc call. -/
inductive SubmitOutcome where
  | droppedLowCapacity
  | enqueued
  | droppedSendTimeout
  | panickedChannelClosed
deriving DecidableEq, Repr

/-- Model of submit_task_to_mpsc: when the channel's remaining capacity is
below 10 the task is dropped without a send; otherwise a send bounded by
listenerSendTimeoutMillis is issued, a timeout error is ignored, a closed
channel panics the process, and only a successful send inserts the task id
into task_ids_in_queue. -/
def submit_task_to_mpsc (capacity : Nat) (send : SendResult) (task : Task)
    (task_ids_in_queue : IdSet) : SubmitOutcome × IdSet :=
  if 10 ≤ capacity then
    match send with
    | SendResult.ok => (SubmitOutcome.enqueued, insertSet task_ids_in_queue task.id)
    | SendResult.timeout => (SubmitOutcome.droppedSendTimeout, task_ids_in_queue)
    | SendResult.closed => (SubmitOutcome.panickedChannelClosed, task_ids_in_queue)
  else (SubmitOutcome.droppedLowCapacity, task_ids_in_queue)

/-! ## Sweeper ingress (pg_searcher.rs) -/

/-- Bound in milliseconds on the Sweeper's channel send wait
(Duration::from_millis(100) in search_and_submit_upcoming_tasks). -/
def sweeperSendTimeoutMillis : Nat := 100

/-- Outcome of one Sweeper pass, recording which task ids were actually
sent into the channel before the pass ended. -/
inductive SweeperOutcome where
  | completed (enqueued : List Uuid)
  | panicked (enqueued : List Uuid)
deriving DecidableEq, Repr

/-- Loop of search_and_submit_upcoming_tasks over the fetched tasks: a task
already in task_ids_in_queue is skipped; otherwise the bounded send is
issued and its Result is unwrapped by expect, so both a timeout and a
closed channel panic the activity.  The set is never written. -/
def sweeperSendLoop (send : Task → SendResult) (task_ids_in_queue : IdSet) :
    List Task → List Uuid → SweeperOutcome
  | [], enqueued => SweeperOutcome.completed enqueued
  | t :: ts, enqueued =>
    if containsSet task_ids_in_queue t.id then
      sweeperSendLoop send task_ids_in_queue ts enqueued
    else
      match send t with
      | SendResult.ok => sweeperSendLoop send task_ids_in_queue ts (enqueued ++ [t.id])
      | SendResult.timeout => SweeperOutcome.panicked enqueued
      | SendResult.closed => SweeperOutcome.panicked enqueued

/-- Model of search_and_submit_upcoming_tasks: the fetch result is
unwrapped (an Err panics the activity), then each fetched task goes
through the send loop.  The second component is task_ids_in_queue after
the pass; the source never inserts into it on this path. -/
def search_and_submit_upcoming_tasks (fetched : Except DbErr (List Task))
    (send : Task → SendResult) (task_ids_in_queue : IdSet) : SweeperOutcome × IdSet :=
  match fetched with
  | Except.error _ => (SweeperOutcome.panicked [], task_ids_in_queue)
  | Except.ok tasks => (sweeperSendLoop send task_ids_in_queue tasks [], task_ids_in_queue)

/-! ## Auxiliary executable predicates and sample data -/

/-- Ascending sortedness of a list of instants, executably. -/
def isSortedAsc : List Int → Bool
  | [] => true
  | [_] => true
  | a :: b :: rest => decide (a ≤ b) && isSortedAsc (b :: rest)

/-- Recognizer for the UnableToDeleteTask error case. -/
def isUnableToDeleteErr : Except Error Db → Bool
  | Except.error (Error.UnableToDeleteTask _ _) => true
  | _ => false

/-- Submitted row stored first, with the later execution time. -/
def rowLate : TaskRow :=
  { id := 1, created_at := 0, status := SqlTaskStatus.submitted, execution_time := 10,
    task_type := TaskType.Foo, started_executing_at := none, completed_at := none,
    failed_at := none, deleted_at := none }

/-- Submitted row stored second, with the earlier execution time. -/
def rowEarly : TaskRow :=
  { id := 2, created_at := 0, status := SqlTaskStatus.submitted, execution_time := 5,
    task_type := TaskType.Bar, started_executing_at := none, completed_at := none,
    failed_at := none, deleted_at := none }

/-- Submitted row used to exercise the claim protocol. -/
def rowSub : TaskRow :=
  { id := 1, created_at := 0, status := SqlTaskStatus.submitted, execution_time := 10,
    task_type := TaskType.Foo, started_executing_at := none, completed_at := none,
    failed_at := none, deleted_at := none }

/-- Row already in the deleted status. -/
def rowDel : TaskRow :=
  { id := 5, created_at := 0, status := SqlTaskStatus.deleted, execution_time := 0,
    task_type := TaskType.Foo, started_executing_at := none, completed_at := none,
    failed_at := none, deleted_at := some 0 }

/-- Row whose task already started executing. -/
def rowStarted : TaskRow :=
  { id := 9, created_at := 0, status := SqlTaskStatus.started_executing, execution_time := 0,
    task_type := TaskType.Bar, started_executing_at := some 1, completed_at := none,
    failed_at := none, deleted_at := none }

/-- Deleted row used for the read-path witness. -/
def rowDelRead : TaskRow :=
  { id := 6, created_at := 0, status := SqlTaskStatus.deleted, execution_time := 0,
    task_type := TaskType.Baz, started_executing_at := none, completed_at := none,
    failed_at := none, deleted_at := some 0 }

/-- In-flight task used to exercise the Sweeper send loop. -/
def sweepTask : Task := { id := 7, task_type := TaskType.Baz, execution_time := 0 }

/-- In-flight task from scenario S1 of the specification, at wire level. -/
def sampleNotifTask : NotifTask :=
  { id := "7658bfd8-f571-4925-8316-4a8fc75d930e".data,
    task_type := TaskType.Bar,
    execution_time := "2024-11-24T20:34:36.909592Z".data }

/-! ## Helper lemmas -/

theorem consumeLit_append (p r : List Char) : consumeLit p (p ++ r) = some r := by
  induction p with
  | nil => rfl
  | cons c cs ih => simp [consumeLit, ih]

theorem splitOnce_append {c : Char} {xs : List Char} (h : c ∉ xs) (ys : List Char) :
    splitOnce c (xs ++ c :: ys) = some (xs, ys) := by
  induction xs with
  | nil => simp [splitOnce]
  | cons a as ih =>
    simp only [List.mem_cons, not_or] at h
    simp only [List.cons_append, splitOnce]
    rw [if_neg (fun hac => h.1 hac.symm)]
    show (splitOnce c (as ++ c :: ys)).map (fun p => (a :: p.1, p.2)) = some (a :: as, ys)
    rw [ih h.2]
    rfl

theorem filter_key_length_le_one (db : Db) (i : Uuid) (p : TaskRow → Bool)
    (hp : ∀ r, p r = true → r.id = i) (h : (db.map TaskRow.id).Nodup) :
    (db.filter p).length ≤ 1 := by
  induction db with
  | nil => simp
  | cons a tl ih =>
    rw [List.map_cons, List.nodup_cons] at h
    cases hpa : p a with
    | false => simpa [List.filter_cons, hpa] using ih h.2
    | true =>
      have htl : tl.filter p = [] := by
        rw [List.filter_eq_nil_iff]
        intro b hb hpb
        exact h.1 ((hp a hpa ▸ hp b hpb ▸ rfl : b.id = a.id) ▸ List.mem_map_of_mem TaskRow.id hb)
      simp [List.filter_cons, hpa, htl]

theorem filter_length_eq_one_iff (db : Db) (p : TaskRow → Bool)
    (hle : (db.filter p).length ≤ 1) :
    (db.filter p).length = 1 ↔ ∃ r ∈ db, p r = true := by
  constructor
  · intro h1
    have hpos : 0 < (db.filter p).length := by omega
    obtain ⟨a, ha⟩ := List.exists_mem_of_length_pos hpos
    exact ⟨a, (List.mem_filter.mp ha).1, (List.mem_filter.mp ha).2⟩
  · rintro ⟨r, hr, hpr⟩
    have hmem : r ∈ db.filter p := List.mem_filter.mpr ⟨hr, hpr⟩
    have hpos : 0 < (db.filter p).length :=
      List.length_pos.mpr (List.ne_nil_of_mem hmem)
    omega

theorem filter_id_eq_singleton (db : Db) (i : Uuid) (r : TaskRow) (hr : r ∈ db)
    (hid : r.id = i) (h : (db.map TaskRow.id).Nodup) :
    db.filter (fun x => x.id == i) = [r] := by
  induction db with
  | nil => cases hr
  | cons a tl ih =>
    rw [List.map_cons, List.nodup_cons] at h
    rcases List.mem_cons.mp hr with rfl | hrtl
    · have htl : tl.filter (fun x => x.id == i) = [] := by
        rw [List.filter_eq_nil_iff]
        intro b hb hpb
        have hbid : b.id = i := by simpa using hpb
        exact h.1 ((hid ▸ hbid : b.id = r.id) ▸ List.mem_map_of_mem TaskRow.id hb)
      simp [List.filter_cons, hid, htl]
    · have hane : (a.id == i) = false := by
        cases hcon2 : (a.id == i) with
        | true =>
          have haeq : a.id = i := by simpa using hcon2
          have hmem : a.id ∈ tl.map TaskRow.id := by
            rw [haeq, ← hid]; exact List.mem_map_of_mem TaskRow.id hrtl
          exact absurd hmem h.1
        | false => rfl
      simp [List.filter_cons, hane, ih hrtl h.2]

theorem row_id_injective (db : Db) (h : (db.map TaskRow.id).Nodup)
    {a b : TaskRow} (ha : a ∈ db) (hb : b ∈ db) (hab : a.id = b.id) : a = b :=
  List.inj_on_of_nodup_map h ha hb hab

/-! ## Claim theorems -/

/-- C2: at the failing input, fetch_task_for_pg_searcher applies the
status/deadline filter and the limit but returns the rows in storage
order, which here is not sorted by execution_time ascending, because the
query has no ORDER BY clause. -/
theorem fetch_due_result_not_sorted :
    fetch_task_for_pg_searcher 0 2 1 [rowLate, rowEarly] =
      [{ id := 1, task_type := TaskType.Foo, execution_time := 10 },
       { id := 2, task_type := TaskType.Bar, execution_time := 5 }] ∧
    isSortedAsc ((fetch_task_for_pg_searcher 0 2 1 [rowLate, rowEarly]).map
      Task.execution_time) = false := by
  constructor
  · rfl
  · rfl

/-- C3: one iteration of the start_work_queue receive loop does not break
out of the loop on a Stop event (the Stop arm only logs), while a None
from the closed channel does break. -/
theorem work_queue_stop_event_does_not_exit :
    start_work_queue_step 1 (some QueueEvent.Stop) = WorkQueueAction.stopLogged ∧
    stepBreaksLoop (start_work_queue_step 1 (some QueueEvent.Stop)) = false ∧
    stepBreaksLoop (start_work_queue_step 1 none) = true := by
  exact ⟨rfl, rfl, rfl⟩

/-- C4: the Sweeper's channel send is bounded by 100 ms, but at the
failing input (a send that times out) the pass panics through the expect
call instead of dropping the task and continuing. -/
theorem sweeper_send_timeout_panics :
    search_and_submit_upcoming_tasks (Except.ok [sweepTask])
        (fun _ => SendResult.timeout) [] =
      (SweeperOutcome.panicked [], []) ∧
    sweeperSendTimeoutMillis = 100 := by
  exact ⟨rfl, rfl⟩

/-- C5 counterexample: a Sweeper pass that successfully enqueues a task
(send returns ok, the id 7 appears in the enqueued list) leaves
task_ids_in_queue empty: the Sweeper ingress path never inserts the id. -/
theorem sweeper_enqueues_without_inserting_id :
    search_and_submit_upcoming_tasks (Except.ok [sweepTask])
        (fun _ => SendResult.ok) [] =
      (SweeperOutcome.completed [7], []) ∧
    containsSet [] 7 = false := by
  exact ⟨rfl, rfl⟩

/-- C5 amended: only the Listener ingress inserts the task id into
task_ids_in_queue (just after a successful bounded send); the Sweeper
ingress leaves the set untouched; and the per-task activity removes the id
after its local handling of the task finishes. -/
theorem dedup_set_discipline :
    (∀ (capacity : Nat) (task : Task) (s : IdSet), 10 ≤ capacity →
      submit_task_to_mpsc capacity SendResult.ok task s =
        (SubmitOutcome.enqueued, insertSet s task.id)) ∧
    (∀ (fetched : Except DbErr (List Task)) (send : Task → SendResult) (s : IdSet),
      (search_and_submit_upcoming_tasks fetched send s).2 = s) ∧
    (∀ (now : Timestamp) (db : Db) (task : Task) (s : IdSet),
      (execute_task_from_queue now db task s).2.2 = eraseSet s task.id) := by
  refine ⟨fun capacity task s hcap => ?_, fun fetched send s => ?_, fun now db task s => ?_⟩
  · simp [submit_task_to_mpsc, hcap]
  · cases fetched <;> rfl
  · rfl

/-- C5 witness: the Listener conjunct of the amended claim at a concrete
input with capacity 10 and a successful send. -/
theorem dedup_set_discipline_witness :
    submit_task_to_mpsc 10 SendResult.ok
        { id := 3, task_type := TaskType.Foo, execution_time := 0 } [] =
      (SubmitOutcome.enqueued, [3]) := by
  exact dedup_set_discipline.1 10
    { id := 3, task_type := TaskType.Foo, execution_time := 0 } [] (by decide)

/-- C6 counterexample: when the fetch of due tasks fails, the Sweeper pass
panics (the unwrap on the fetch result), rather than logging and
continuing with the next iteration. -/
theorem sweeper_fetch_error_panics_concrete :
    search_and_submit_upcoming_tasks (Except.error DbErr.connectionFailed)
        (fun _ => SendResult.ok) [] =
      (SweeperOutcome.panicked [], []) := by
  rfl

/-- C6 amended: a storage error from the due-task fetch terminates the
Sweeper pass with a panic before any task is enqueued, for every send
behaviour and every state of the dedup set. -/
theorem sweeper_fetch_error_always_panics :
    ∀ (e : DbErr) (send : Task → SendResult) (s : IdSet),
      (search_and_submit_upcoming_tasks (Except.error e) send s).1 =
        SweeperOutcome.panicked [] := by
  intro e send s
  rfl

/-- C7: submit_task_to_mpsc drops the task without a send when remaining
capacity is below 10, issues a send bounded by 100 ms otherwise, drops the
task when that send times out, and panics the process when the channel is
closed. -/
theorem listener_submit_backpressure (capacity : Nat) (task : Task) (s : IdSet) :
    (capacity < 10 → ∀ send : SendResult,
      submit_task_to_mpsc capacity send task s = (SubmitOutcome.droppedLowCapacity, s)) ∧
    (10 ≤ capacity →
      submit_task_to_mpsc capacity SendResult.timeout task s =
        (SubmitOutcome.droppedSendTimeout, s)) ∧
    (10 ≤ capacity →
      submit_task_to_mpsc capacity SendResult.closed task s =
        (SubmitOutcome.panickedChannelClosed, s)) ∧
    listenerSendTimeoutMillis = 100 := by
  refine ⟨fun hlow send => ?_, fun hcap => ?_, fun hcap => ?_, rfl⟩
  · have : ¬ 10 ≤ capacity := by omega
    simp [submit_task_to_mpsc, this]
  · simp [submit_task_to_mpsc, hcap]
  · simp [submit_task_to_mpsc, hcap]

/-- C7 witness: with remaining capacity 3 the task is dropped before any
send. -/
theorem listener_submit_backpressure_witness :
    submit_task_to_mpsc 3 SendResult.ok
        { id := 4, task_type := TaskType.Bar, execution_time := 0 } [] =
      (SubmitOutcome.droppedLowCapacity, []) := by
  exact (listener_submit_backpressure 3
    { id := 4, task_type := TaskType.Bar, execution_time := 0 } []).1
    (by decide) SendResult.ok

/-- C8 counterexample: deleting a task whose row is already in the deleted
status fails with a column-decode storage error (the Rust status enum has
no deleted variant), not with the descriptive UnableToDeleteTask error. -/
theorem mark_task_deleted_on_deleted_row_decode_error :
    mark_task_deleted 0 [rowDel] 5 =
      Except.error (Error.SqlxError DbErr.columnDecode) ∧
    isUnableToDeleteErr (mark_task_deleted 0 [rowDel] 5) = false := by
  exact ⟨rfl, rfl⟩

/-- C1: with unique primary keys, acquire_exclusive_lock reports one
affected row exactly when the row with this id exists in status submitted
(Claimed), and zero otherwise (AlreadyHandled); a claimed row moves to
started_executing with started_executing_at set to now while every other
row is unchanged; and execute_task_once runs the task body exactly when
rows_affected is 1. -/
theorem acquire_exclusive_lock_claim_spec (now : Timestamp) (db : Db) (i : Uuid)
    (ty : TaskType) (et : Timestamp) (hids : (db.map TaskRow.id).Nodup) :
    ((acquire_exclusive_lock now db i).2 = 1 ↔
      ∃ r ∈ db, r.id = i ∧ r.status = SqlTaskStatus.submitted) ∧
    ((acquire_exclusive_lock now db i).2 = 0 ↔
      ¬ ∃ r ∈ db, r.id = i ∧ r.status = SqlTaskStatus.submitted) ∧
    (∀ r ∈ db, r.id = i → r.status = SqlTaskStatus.submitted →
      { r with status := SqlTaskStatus.started_executing,
               started_executing_at := some now } ∈ (acquire_exclusive_lock now db i).1) ∧
    (∀ r ∈ db, ¬(r.id = i ∧ r.status = SqlTaskStatus.submitted) →
      r ∈ (acquire_exclusive_lock now db i).1) ∧
    ((execute_task_once now db { id := i, task_type := ty, execution_time := et }).1 =
        ExecOutcome.executedBody ↔ (acquire_exclusive_lock now db i).2 = 1) := by
  have hp : ∀ r : TaskRow, (r.id == i && r.status == SqlTaskStatus.submitted) = true →
      r.id = i := by
    intro r h
    simp only [Bool.and_eq_true, beq_iff_eq] at h
    exact h.1
  have hle := filter_key_length_le_one db i _ hp hids
  have hiff := filter_length_eq_one_iff db _ hle
  have hex : (∃ r ∈ db, (r.id == i && r.status == SqlTaskStatus.submitted) = true) ↔
      (∃ r ∈ db, r.id = i ∧ r.status = SqlTaskStatus.submitted) := by
    constructor
    · rintro ⟨r, hr, hpr⟩
      simp only [Bool.and_eq_true, beq_iff_eq] at hpr
      exact ⟨r, hr, hpr⟩
    · rintro ⟨r, hr, h1, h2⟩
      exact ⟨r, hr, by simp [h1, h2]⟩
  have hlen : (acquire_exclusive_lock now db i).2 =
      (db.filter (fun r => r.id == i && r.status == SqlTaskStatus.submitted)).length := rfl
  refine ⟨?_, ?_, ?_, ?_, ?_⟩
  · rw [hlen, hiff, hex]
  · rw [hlen]
    constructor
    · intro h0 hcon
      rw [← hex, ← hiff] at hcon
      omega
    · intro hno
      rw [← hex, ← hiff] at hno
      omega
  · intro r hr hid hst
    have heq : (if r.id == i && r.status == SqlTaskStatus.submitted then
        { r with status := SqlTaskStatus.started_executing, started_executing_at := some now }
      else r) =
        { r with status := SqlTaskStatus.started_executing,
                 started_executing_at := some now } := by
      simp [hid, hst]
    exact heq ▸ List.mem_map_of_mem _ hr
  · intro r hr hns
    have hcond : (r.id == i && r.status == SqlTaskStatus.submitted) = false := by
      rw [Bool.eq_false_iff]
      intro htrue
      simp only [Bool.and_eq_true, beq_iff_eq] at htrue
      exact hns htrue
    have heq : (if r.id == i && r.status == SqlTaskStatus.submitted then
        { r with status := SqlTaskStatus.started_executing, started_executing_at := some now }
      else r) = r := by
      rw [hcond]
      rfl
    exact heq ▸ List.mem_map_of_mem _ hr
  · rcases hn : (acquire_exclusive_lock now db i).2 with _ | m
    · simp [execute_task_once, hn]
    · rcases m with _ | k
      · simp [execute_task_once, hn]
      · constructor
        · intro hcon
          simp [execute_task_once, hn] at hcon
        · intro hcon
          omega

/-- C1 witness: on a one-row table holding a submitted task with id 1, the
claim reports exactly one affected row. -/
theorem acquire_exclusive_lock_claim_spec_witness :
    (acquire_exclusive_lock 0 [rowSub] 1).2 = 1 :=
  (acquire_exclusive_lock_claim_spec 0 [rowSub] 1 TaskType.Foo 0 (by decide)).1.mpr
    ⟨rowSub, by simp, rfl, rfl⟩

/-- C8 amended: with unique primary keys, mark_task_deleted fails with
TaskNotFound when no row has the id; fails with a column-decode storage
error when the row is already deleted (the Rust status enum cannot
represent that status); fails with UnableToDeleteTask when the decoded
status is any other non-submitted status; and on a submitted row succeeds,
marking that row deleted with deleted_at set while keeping every other
row. -/
theorem mark_task_deleted_spec (now : Timestamp) (db : Db) (i : Uuid)
    (hids : (db.map TaskRow.id).Nodup) :
    ((∀ r ∈ db, r.id ≠ i) →
      mark_task_deleted now db i = Except.error (Error.TaskNotFound i)) ∧
    (∀ r ∈ db, r.id = i → r.status = SqlTaskStatus.deleted →
      mark_task_deleted now db i = Except.error (Error.SqlxError DbErr.columnDecode)) ∧
    (∀ r ∈ db, r.id = i → ∀ st, decodeSqlStatus r.status = some st →
      st ≠ TaskStatus.Submitted →
      mark_task_deleted now db i = Except.error (Error.UnableToDeleteTask i st)) ∧
    (∀ r ∈ db, r.id = i → r.status = SqlTaskStatus.submitted →
      ∃ db2, mark_task_deleted now db i = Except.ok db2 ∧
        { r with status := SqlTaskStatus.deleted, deleted_at := some now } ∈ db2 ∧
        ∀ r2 ∈ db, r2.id ≠ i → r2 ∈ db2) := by
  refine ⟨?_, ?_, ?_, ?_⟩
  · intro habs
    have hfilter : db.filter (fun x => x.id == i) = [] := by
      rw [List.filter_eq_nil_iff]
      intro a ha
      simpa using habs a ha
    simp [mark_task_deleted, get_task_status, hfilter]
  · intro r hr hid hst
    have hsing := filter_id_eq_singleton db i r hr hid hids
    simp [mark_task_deleted, get_task_status, hsing, hst, decodeSqlStatus]
  · intro r hr hid st hdec hne
    have hsing := filter_id_eq_singleton db i r hr hid hids
    simp [mark_task_deleted, get_task_status, hsing, hdec, hne]
  · intro r hr hid hst
    have hsing := filter_id_eq_singleton db i r hr hid hids
    refine ⟨db.map (fun r2 =>
      if r2.id == i && !(r2.status == SqlTaskStatus.deleted) then
        { r2 with status := SqlTaskStatus.deleted, deleted_at := some now }
      else r2), ?_, ?_, ?_⟩
    · simp [mark_task_deleted, get_task_status, hsing, hst, decodeSqlStatus]
    · have heq : (if r.id == i && !(r.status == SqlTaskStatus.deleted) then
          { r with status := SqlTaskStatus.deleted, deleted_at := some now }
        else r) = { r with status := SqlTaskStatus.deleted, deleted_at := some now } := by
        simp [hid, hst]
      exact heq ▸ List.mem_map_of_mem _ hr
    · intro r2 hr2 hne
      have hcond : (r2.id == i && !(r2.status == SqlTaskStatus.deleted)) = false := by
        cases hb : (r2.id == i) with
        | true =>
          exact absurd (by simpa using hb) hne
        | false => rfl
      have heq : (if r2.id == i && !(r2.status == SqlTaskStatus.deleted) then
          { r2 with status := SqlTaskStatus.deleted, deleted_at := some now }
        else r2) = r2 := by
        rw [hcond]
        rfl
      exact heq ▸ List.mem_map_of_mem _ hr2

/-- C8 witness: deleting a task that already started executing fails with
the descriptive UnableToDeleteTask error. -/
theorem mark_task_deleted_spec_witness :
    mark_task_deleted 0 [rowStarted] 9 =
      Except.error (Error.UnableToDeleteTask 9 TaskStatus.StartedExecuting) :=
  (mark_task_deleted_spec 0 [rowStarted] 9 (by decide)).2.2.1 rowStarted (by simp) rfl
    TaskStatus.StartedExecuting rfl (by decide)

/-- C10: with unique primary keys, get_task returns none for the id of a
deleted row, and no deleted row ever appears in a list_tasks result, for
every combination of status and type filters. -/
theorem read_paths_exclude_deleted :
    (∀ (db : Db) (i : Uuid), (db.map TaskRow.id).Nodup →
      ∀ r ∈ db, r.id = i → r.status = SqlTaskStatus.deleted → get_task db i = none) ∧
    (∀ (db : Db) (status : Option TaskStatus) (typ : Option TaskType),
      ∀ r ∈ list_tasks db status typ, r.status ≠ SqlTaskStatus.deleted) := by
  constructor
  · intro db i hids r hr hid hst
    have hfilter :
        db.filter (fun x => x.id == i && !(x.status == SqlTaskStatus.deleted)) = [] := by
      rw [List.filter_eq_nil_iff]
      intro a ha htrue
      simp only [Bool.and_eq_true, beq_iff_eq, Bool.not_eq_true', beq_eq_false_iff_ne,
        ne_eq] at htrue
      have haeqr : a = r := row_id_injective db hids ha hr (by rw [htrue.1, hid])
      exact htrue.2 (haeqr ▸ hst ▸ rfl)
    simp [get_task, hfilter]
  · intro db status typ r hr
    have := (List.mem_filter.mp hr).2
    simp only [Bool.and_eq_true, Bool.not_eq_true', beq_eq_false_iff_ne, ne_eq] at this
    exact this.2

/-- C10 witness: a single-row table whose row is deleted yields none from
get_task at that id. -/
theorem read_paths_exclude_deleted_witness :
    get_task [rowDelRead] 6 = none :=
  read_paths_exclude_deleted.1 [rowDelRead] 6 (by decide) rowDelRead (by simp) rfl rfl

/-- C9: the notification codec round-trips.  For every valid in-flight
task, decoding the encoded new_task announcement yields NewTask of the
same task, and decoding the encoded stop announcement yields Stop. -/
theorem notification_codec_roundtrip (t : NotifTask) (hvalid : validNotifTask t) :
    decodeNotification (encodeNotification (Notification.NewTask t)) =
      Except.ok (Notification.NewTask t) ∧
    decodeNotification (encodeNotification Notification.Stop) =
      Except.ok Notification.Stop := by
  obtain ⟨⟨hidq, hidb, hidc⟩, htq, htb, htc⟩ := hvalid
  refine ⟨?_, rfl⟩
  have henc : encodeNotification (Notification.NewTask t) =
      "new_task".data ++ ' ' :: jsonOfTask t := by
    show "new_task ".data ++ jsonOfTask t = "new_task".data ++ ' ' :: jsonOfTask t
    rw [show ("new_task ".data : List Char) = "new_task".data ++ [' '] from by decide]
    rw [List.append_assoc]
    rfl
  have hW : '"' ∉ taskTypeWire t.task_type := by
    cases t.task_type <;> decide
  have hty : parseTaskType (taskTypeWire t.task_type) = some t.task_type := by
    cases t.task_type <;> rfl
  have hshape : jsonOfTask t =
      "\x7b\"id\":\"".data ++ (t.id ++ ('"' :: (",\"task_type\":\"".data ++
        (taskTypeWire t.task_type ++ ('"' :: (",\"execution_time\":\"".data ++
          (t.execution_time ++ ('"' :: "\x7d".data)))))))) := by
    unfold jsonOfTask
    rw [show ("\",\"task_type\":\"".data : List Char) =
        '"' :: ",\"task_type\":\"".data from by decide,
      show ("\",\"execution_time\":\"".data : List Char) =
        '"' :: ",\"execution_time\":\"".data from by decide,
      show ("\"\x7d".data : List Char) = '"' :: "\x7d".data from by decide]
    simp [List.append_assoc]
  have hjson : parseTaskJson (jsonOfTask t) = some t := by
    rw [hshape]
    simp only [parseTaskJson, consumeLit_append, splitOnce_append hidq,
      splitOnce_append hW, splitOnce_append htq, hty]
    simp
  have hne : ("new_task".data ++ ' ' :: jsonOfTask t) ≠ "stop".data := by
    intro h
    have h2 : 'n' :: ("ew_task".data ++ ' ' :: jsonOfTask t) = 's' :: "top".data := h
    simp at h2
  have hsplit : splitOnce ' ' ("new_task".data ++ ' ' :: jsonOfTask t) =
      some ("new_task".data, jsonOfTask t) :=
    splitOnce_append (by decide) _
  have hsplitc : splitOnce ' '
      ('n' :: 'e' :: 'w' :: '_' :: 't' :: 'a' :: 's' :: 'k' :: ' ' :: jsonOfTask t) =
      some (['n', 'e', 'w', '_', 't', 'a', 's', 'k'], jsonOfTask t) :=
    @splitOnce_append ' ' ['n', 'e', 'w', '_', 't', 'a', 's', 'k'] (by decide) (jsonOfTask t)
  rw [henc]
  simp [decodeNotification, hne, hsplit, hsplitc, hjson]

/-- C9 witness: the round trip at the concrete task of scenario S1
(id 7658bfd8-f571-4925-8316-4a8fc75d930e, type bar, execution time
2024-11-24T20:34:36.909592Z). -/
theorem notification_codec_roundtrip_witness :
    decodeNotification (encodeNotification (Notification.NewTask sampleNotifTask)) =
      Except.ok (Notification.NewTask sampleNotifTask) :=
  (notification_codec_roundtrip sampleNotifTask (by decide)).1

end TaskSched
